import Mathlib

/-!
Shallow embedding of `urls/section.py` from the cwf repository: the
`Section` / `Options` / `Values` URL-tree engine and its `Menu` traversals.

Python objects that form a cyclic graph (sections hold children and a parent
back-reference) are embedded as an arena: a list of `SectionNode` records
addressed by index, with `parentIdx` / `childrenIdx` holding indices.
Python reference semantics for the mutable `Values` sub-object of `Options`
is embedded the same way: `Options.values` is an index into a values store.
Fallible Python code (NameError, AttributeError, ...) returns `Except PyErr`.
-/

namespace Cwf

/-- Python runtime errors raised by the code paths modelled here. -/
inductive PyErr where
  | nameError (n : String)
  | attributeError (n : String)
  | indexError
  | recursionError
  deriving DecidableEq, Repr

/-- A plain Python object with named attributes, used as a `module` or `kls`
value for `Options.getObj` attribute walking.  The string tags the object so
distinct objects are distinguishable. -/
inductive PObj where
  | mk : String → List (String × PObj) → PObj

/-- `getattr` on a plain object: look the name up among the attributes. -/
def PObj.getattr : PObj → String → Option PObj
  | .mk _ attrs, k => attrs.lookup k

/-- The Python values that can sit in `Options.kls` / `Options.module`:
`None`, a string, a class-like object, or a function (identified by id). -/
inductive PyVal where
  | none
  | str (s : String)
  | obj (o : PObj)
  | fn (id : Nat)

/-- `'%s' % v` for the values above (only the string / None cases are ever
reached by the modelled code). -/
def PyVal.format : PyVal → String
  | .none => "None"
  | .str s => s
  | .obj _ => "<object>"
  | .fn _ => "<function>"

/-- `Options.target`: either a name to look up on the view class, or a raw
function (Python `FunctionType`), identified by id. -/
inductive TargetV where
  | name (s : String)
  | fn (id : Nat)

/-- The mutable payload of a `Values` object, as far as the claims need it:
the enumerated raw values.  Lives in a store so that two `Options` can hold
references to the same object (Python aliasing). -/
structure ValuesObj where
  vals : List Int

/-- Store of `Values` objects; `Options.values` holds an index into it. -/
abbrev ValuesStore := List ValuesObj

/-- `Options.__init__` field bag, in source order (section.py lines 232-250).
`values` is a reference (index) into a `ValuesStore`; `condition` is
modelled by its boolean value (callable conditions are outside the claims);
`redirect` likewise by its eventual string value or `none`. -/
structure Options where
  active : Bool
  exists_ : Bool
  display : Bool
  showBase : Bool
  alias_ : Option String
  match_ : Option String
  values : Option Nat
  kls : PyVal
  module : PyVal
  target : TargetV
  redirect : Option String
  condition : Bool
  extraContext : Option (List (String × PyVal))

/-- The defaults of `Options.__init__`. -/
def defaultOptions : Options :=
  ⟨true, true, true, true, none, none, none, .str "Views", .none, .name "base",
   none, false, none⟩

/-- A `**kwargs` dict for `Options.clone` / `Options.update`: each field is
present (`some`) or absent (`none`). -/
structure Kwargs where
  active : Option Bool
  exists_ : Option Bool
  display : Option Bool
  showBase : Option Bool
  alias_ : Option (Option String)
  match_ : Option (Option String)
  values : Option (Option Nat)
  kls : Option PyVal
  module : Option PyVal
  target : Option TargetV
  redirect : Option (Option String)
  condition : Option Bool
  extraContext : Option (Option (List (String × PyVal)))

/-- The empty `**kwargs` dict. -/
def emptyKwargs : Kwargs :=
  ⟨none, none, none, none, none, none, none, none, none, none, none, none, none⟩

/-- The kwargs dict `\x7bmatch: m\x7d` that `Section.add` / `Section.first`
pass to `clone` (the `match` key is always present, its value possibly None). -/
def matchKwargs (m : Option String) : Kwargs :=
  ⟨none, none, none, none, none, some m, none, none, none, none, none, none, none⟩

/-- `Options.clone` (lines 264-271): snapshot the current values of every
init argument, update the snapshot with the given kwargs, and build a new
`Options` from the result.  Field values — including the `values`
reference — are copied as they are. -/
def Options.clone (o : Options) (k : Kwargs) : Options :=
  ⟨k.active.getD o.active, k.exists_.getD o.exists_, k.display.getD o.display,
   k.showBase.getD o.showBase, k.alias_.getD o.alias_, k.match_.getD o.match_,
   k.values.getD o.values, k.kls.getD o.kls, k.module.getD o.module,
   k.target.getD o.target, k.redirect.getD o.redirect,
   k.condition.getD o.condition, k.extraContext.getD o.extraContext⟩

/-- `Options.update` (lines 273-275): in-place assignment of the supplied
keywords, i.e. the record with the present kwargs fields replaced. -/
def Options.update (o : Options) (k : Kwargs) : Options :=
  ⟨k.active.getD o.active, k.exists_.getD o.exists_, k.display.getD o.display,
   k.showBase.getD o.showBase, k.alias_.getD o.alias_, k.match_.getD o.match_,
   k.values.getD o.values, k.kls.getD o.kls, k.module.getD o.module,
   k.target.getD o.target, k.redirect.getD o.redirect,
   k.condition.getD o.condition, k.extraContext.getD o.extraContext⟩

/-- `Options.show` (lines 277-286): false iff the (evaluated) condition is
truthy. -/
def Options.show (o : Options) : Bool :=
  !o.condition

/-- Python `s.startswith(c)` for a single character, on the char list. -/
def pyStartsWith (s : String) (c : Char) : Bool :=
  match s.data with
  | c0 :: _ => c0 = c
  | [] => false

/-- Python `s.endswith(c)` for a single character, on the char list. -/
def pyEndsWith (s : String) (c : Char) : Bool :=
  match s.data.getLast? with
  | some c0 => c0 = c
  | none => false

/-- Python `s[1:]`. -/
def pyTail (s : String) : String :=
  String.mk s.data.tail

/-- Python `s[:-1]`. -/
def pyDropLast (s : String) : String :=
  String.mk s.data.dropLast

/-- Helper for `pySplitDots`: accumulate the current field (reversed). -/
def pySplitDotsAux : List Char → List Char → List String
  | [], acc => [String.mk acc.reverse]
  | c :: rest, acc =>
    if c = '.' then String.mk acc.reverse :: pySplitDotsAux rest []
    else pySplitDotsAux rest (c :: acc)

/-- Python `s.split('.')`. -/
def pySplitDots (s : String) : List String :=
  pySplitDotsAux s.data []

/-- One step of the `getattr` walk in `Options.getObj`: only plain objects
have attributes; anything else raises AttributeError, like Python. -/
def getattrV (v : PyVal) (k : String) : Except PyErr PyVal :=
  match v with
  | .obj o =>
    match o.getattr k with
    | some r => .ok (.obj r)
    | none => .error (.attributeError k)
  | _ => .error (.attributeError k)

/-- `Options.getObj` (lines 288-325), translated faithfully, including the
slip at line 318: in the both-strings branch the code interpolates the
original `self.kls`, not the `kls` local it just stripped of leading and
trailing dots (and line 317 is a dead store).  The stripped `kls` is used by
the module-is-None and attribute-walk branches only. -/
def Options.getObj (o : Options) : Except PyErr PyVal :=
  match o.kls with
  | .obj x => .ok (.obj x)
  | .fn f => .ok (.fn f)
  | _ =>
    let kls0 := match o.kls with | .str s => s | _ => ""
    let kls1 := if pyStartsWith kls0 '.' then pyTail kls0 else kls0
    let kls2 := if pyEndsWith kls1 '.' then pyDropLast kls1 else kls1
    match o.module with
    | .none =>
      if kls2 = "" then .ok .none else .ok (.str kls2)
    | .str m =>
      .ok (.str (m ++ "." ++ o.kls.format))
    | mv =>
      (pySplitDots kls2).foldlM getattrV mv

/-- `re.sub('/+', '/', s)` on the character list: collapse each run of
repeated slashes to a single slash. -/
def collapseChars : List Char → List Char
  | [] => []
  | [c] => [c]
  | a :: b :: rest =>
    if a = '/' ∧ b = '/' then collapseChars (b :: rest)
    else a :: collapseChars (b :: rest)

/-- `regexes['multiSlash'].sub('/', pattern)` (line 334). -/
def collapseSlash (s : String) : String :=
  String.mk (collapseChars s.data)

/-- The view slot plus kwargs of an emitted url tuple. -/
inductive ViewPayload where
  | redirect (url : String)
  | directFn (id : Nat) (extra : Option (List (String × PyVal)))
  | dispatch (obj : Except PyErr PyVal) (target : String) (sectionIdx : Option Nat)
      (extra : Option (List (String × PyVal)))

/-- One `(pattern, view, kwargs, name)` tuple yielded by
`Options.urlPattern`. -/
structure UrlEntry where
  pattern : String
  payload : ViewPayload
  name : Option String

/-- `Options.urlPattern` (lines 327-370): emit nothing unless
`active and exists`; join the segments with '/', collapse repeated slashes,
anchor — line 338 formats `'^%s$'` for a slash-terminated path and line 340
formats `'^%s/?$'` (three trailing characters, no backslash) otherwise;
then emit a redirect tuple when `redirect` is a non-empty string, a
direct-function tuple when `target` is a raw function, else a dispatch
tuple carrying `getObj()`, the target name, the section and extraContext. -/
def Options.urlPattern (o : Options) (pattern : List String)
    (sectionIdx : Option Nat) (name : Option String) : List UrlEntry :=
  if o.active && o.exists_ then
    let p0 := String.intercalate "/" pattern
    let p1 := collapseSlash p0
    let p2 := if pyEndsWith p1 '/' then "^" ++ p1 ++ "$" else "^" ++ p1 ++ "/?$"
    match o.redirect with
    | some r =>
      if r ≠ "" then [⟨p2, .redirect r, name⟩]
      else
        match o.target with
        | .fn f => [⟨p2, .directFn f o.extraContext, name⟩]
        | .name t => [⟨p2, .dispatch o.getObj t sectionIdx o.extraContext, name⟩]
    | none =>
      match o.target with
      | .fn f => [⟨p2, .directFn f o.extraContext, name⟩]
      | .name t => [⟨p2, .dispatch o.getObj t sectionIdx o.extraContext, name⟩]
  else []

/-- A `Section` instance (lines 21-34): url, name, parent back-reference and
children as arena indices, the options bag, the `_pattern` slot set to None
by `__init__`, and the `pattern` attribute that `getPattern` later creates
dynamically (absent until then). -/
structure SectionNode where
  url : String
  name : Option String
  parentIdx : Option Nat
  childrenIdx : List Nat
  opts : Options
  underscorePattern : Option (List String)
  patternAttr : Option (List String)

/-- The arena holding every `Section` object of a tree; indices are object
identities. -/
abbrev Store := List SectionNode

/-- A fresh `Section(url, name, parent)`: no children, `_options` filled in
by the caller (`add` / `first` clone the parent's options right after
construction), `_pattern = None`, no `pattern` attribute yet. -/
def mkSection (url : String) (name : Option String) (parentIdx : Option Nat)
    (opts : Options) : SectionNode :=
  ⟨url, name, parentIdx, [], opts, none, none⟩

/-- `Section.determineSelection` (lines 171-183): not selected with an empty
remainder when the parent is unselected or the path is exhausted; otherwise
compare the path head against the url (the node's own url when the argument
is falsy, i.e. None or the empty string). -/
def SectionNode.determineSelection (node : SectionNode) (path : List String)
    (parentSelected : Bool) (url : Option String) : Bool × List String :=
  if !parentSelected || path.isEmpty then (false, [])
  else
    let u := match url with
      | none => node.url
      | some v => if v = "" then node.url else v
    match path with
    | [] => (false, [])
    | p :: rest => if p = u then (true, rest) else (false, [])

/-- The single url segment `getPattern` appends for a node (lines 216-220):
a named capture group when `options.match` is truthy, else the literal url. -/
def segOf (node : SectionNode) : String :=
  match node.opts.match_ with
  | some m => if m = "" then node.url else "(?P<" ++ m ++ ">" ++ node.url ++ ")"
  | none => node.url

/-- `Section.getPattern` (lines 208-223) as a pure function of the arena:
honour the `self._pattern` truthiness check, recurse into the parent, append
this node's segment.  It is pure because the assignment at line 222 writes
the `pattern` attribute, not `_pattern`, so no call ever observes a cache
(see `getPatternS` for the stateful version).  `fuel` bounds the parent
chain; `none` means a lookup failed or fuel ran out (never happens on
well-formed arenas). -/
def getPatternAux (store : Store) : Nat → Nat → Option (List String)
  | 0, _ => none
  | fuel + 1, i =>
    match store[i]? with
    | none => none
    | some node =>
      let cached := node.underscorePattern.getD []
      if cached.isEmpty then
        let parentPat := match node.parentIdx with
          | some p => getPatternAux store fuel p
          | none => some []
        match parentPat with
        | none => none
        | some pp => some (pp ++ [segOf node])
      else some cached

/-- `Section.getPattern` with the canonical fuel `i + 1`, enough for any
arena whose parent indices decrease. -/
def getPat (store : Store) (i : Nat) : Option (List String) :=
  getPatternAux store (i + 1) i

/-- `Section.getPattern` (lines 208-223), stateful translation: threads the
arena so the attribute writes are visible.  Line 209 reads `self._pattern`;
line 222 assigns `self.pattern` — a different attribute — so the function
stores the result in `patternAttr` and leaves `underscorePattern` alone. -/
def getPatternSAux (store : Store) : Nat → Nat → Option (List String × Store)
  | 0, _ => none
  | fuel + 1, i =>
    match store[i]? with
    | none => none
    | some node =>
      let cached := node.underscorePattern.getD []
      if cached.isEmpty then
        let parentRes := match node.parentIdx with
          | some p => getPatternSAux store fuel p
          | none => some ([], store)
        match parentRes with
        | none => none
        | some (pp, store1) =>
          let pat := pp ++ [segOf node]
          some (pat, store1.set i { node with patternAttr := some pat })
      else some (cached, store)

/-- `Section.show` (lines 120-129): this node's `options.show()` provided
every ancestor shows as well. -/
def showRec (store : Store) : Nat → Nat → Bool
  | 0, _ => false
  | fuel + 1, i =>
    match store[i]? with
    | none => false
    | some node =>
      let parentShow := match node.parentIdx with
        | some p => showRec store fuel p
        | none => true
      parentShow && node.opts.show

/-- Python `str.capitalize()`: first character upper-cased, the rest
lower-cased. -/
def pyCapitalize (s : String) : String :=
  match s.data with
  | [] => ""
  | c :: rest => String.mk (c.toUpper :: rest.map Char.toLower)

/-- The `children` slot of a menu info tuple: either the plain children list
(no generator supplied), or the unevaluated
`lambda : gen(self.children, fullUrl, selected, path)()` closure with the
captured arguments (line 156).  Because line 142 unpacks
`path, selected = self.determineSelection(...)` against a
`(selected, rest)` return value, the captured `selected` is the remaining
path list and the captured `path` is the selection boolean. -/
inductive ChildrenRep where
  | plain (idxs : List Nat)
  | genThunk (idxs : List Nat) (fullUrl : List String) (selected : List String)
      (path : Bool)

/-- One `(url, fullUrl, alias, selected, children, options)` tuple yielded
by `Section.getInfo`.  The `selected` slot holds a list, not a boolean: see
`ChildrenRep` on the swapped unpacking at line 142. -/
structure InfoTuple where
  url : String
  fullUrl : List String
  alias_ : String
  selected : List String
  children : ChildrenRep
  opts : Options

/-- `Section.getInfo` (lines 135-169).  Yields nothing unless
`options.active and options.exists and self.show()`.  When `options.values`
is set, line 161 reads `self.values` — `Section` has no such attribute, so
the generator raises AttributeError.  Otherwise one tuple is yielded, with
the alias defaulting to the capitalized url, `fullUrl` a copy of the
parent's url list (empty when falsy) extended with this node's truthy url,
and the selection computed by `determineSelection` (unpacked swapped, line
142).  `gen = true` records that a generator callback was supplied, making
the children slot a thunk. -/
def getInfo (store : Store) (i : Nat) (path : List String)
    (parentUrl : Option (List String)) (parentSelected : Bool) (gen : Bool) :
    Except PyErr (List InfoTuple) :=
  match store[i]? with
  | none => .error .indexError
  | some node =>
    if node.opts.active && node.opts.exists_ && showRec store (i + 1) i then
      if node.opts.values.isSome then .error (.attributeError "values")
      else
        let al := match node.opts.alias_ with
          | some a => if a = "" then pyCapitalize node.url else a
          | none => pyCapitalize node.url
        let ds := node.determineSelection path parentSelected (some node.url)
        let pathB := ds.1
        let selectedL := ds.2
        let fullUrl0 := match parentUrl with
          | none => []
          | some l => if l.isEmpty then [] else l
        let fullUrl := if node.url = "" then fullUrl0 else fullUrl0 ++ [node.url]
        let children := if gen then ChildrenRep.genThunk node.childrenIdx fullUrl selectedL pathB
          else ChildrenRep.plain node.childrenIdx
        .ok [⟨node.url, fullUrl, al, selectedL, children, node.opts⟩]
    else .ok []

/-- `Section.patternList` (lines 193-202), translated faithfully: the first
statement of the generator body, line 194, reads `section.showBase`, and no
name `section` is bound anywhere in scope (the parameter is `self`; the
module globals are `regexes` and the class names).  Iterating the generator
therefore raises `NameError: name 'section' is not defined` before anything
else runs, for every receiver. -/
def patternList (store : Store) (i : Nat) : Except PyErr (List UrlEntry) :=
  let _ := store
  let _ := i
  .error (.nameError "section")

/-- `Section.patternList` with the two evident name slips repaired — line
194 `section.showBase` read as `self.options.showBase` (the attribute
`Menu.heirarchial` consults at line 560) and line 201 `getPatternList` read
as `patternList`, the method being recursed into.  Emit this node's own
`urlPattern` tuples when `showBase` is set or the node is childless, then
recurse into the children in order.  `fuel` bounds the tree depth. -/
def patternListIntended (store : Store) : Nat → Nat → Except PyErr (List UrlEntry)
  | 0, _ => .error .recursionError
  | fuel + 1, i =>
    match store[i]? with
    | none => .error .indexError
    | some node =>
      let own := if node.opts.showBase || node.childrenIdx.isEmpty then
          node.opts.urlPattern ((getPat store i).getD []) (some i) node.name
        else []
      node.childrenIdx.foldlM
        (fun acc c => (patternListIntended store fuel c).map (acc ++ ·)) own

/-- `Section.rootAncestor` (lines 113-118): follow parent links until a node
without a parent. -/
def rootAncestorAux (store : Store) : Nat → Nat → Option Nat
  | 0, _ => none
  | fuel + 1, i =>
    match store[i]? with
    | none => none
    | some node =>
      match node.parentIdx with
      | some p => rootAncestorAux store fuel p
      | none => some i

/-- One declarative tree-building call: `parent.add(url, match, name)` or
`parent.first(match, name)`, with the parent given by its arena index. -/
inductive BuildOp where
  | add (parent : Nat) (url : String) (match_ : Option String) (name : Option String)
  | first (parent : Nat) (match_ : Option String) (name : Option String)

/-- `Section.add` (lines 36-45) and `Section.first` (lines 47-57) on the
arena.  `add` rejects the empty url (ValueError), constructs
`Section(url, name, parent=self)` with `self.options.clone(match=match)`
and appends it to `self.children`.  `first` pops an existing first child
whose url is empty, then inserts the new empty-url child at slot 0.  The
new node is appended at the end of the arena, so its index is the old arena
length. -/
def applyOp (store : Store) : BuildOp → Except String Store
  | .add p url m n =>
    if url = "" then
      .error "Use section.first() to add a section with same url as parent"
    else
      match store[p]? with
      | none => .error "unknown parent section"
      | some pn =>
        let child := mkSection url n (some p) (pn.opts.clone (matchKwargs m))
        .ok ((store ++ [child]).set p
          { pn with childrenIdx := pn.childrenIdx ++ [store.length] })
  | .first p m n =>
    match store[p]? with
    | none => .error "unknown parent section"
    | some pn =>
      let kept := match pn.childrenIdx with
        | c0 :: rest =>
          match store[c0]? with
          | some ch => if ch.url = "" then rest else pn.childrenIdx
          | none => pn.childrenIdx
        | [] => []
      let child := mkSection "" n (some p) (pn.opts.clone (matchKwargs m))
      .ok ((store ++ [child]).set p
        { pn with childrenIdx := store.length :: kept })

/-- Run a whole declarative construction script. -/
def buildOps (store : Store) (ops : List BuildOp) : Except String Store :=
  ops.foldlM applyOp store

/-- `Section.base` (lines 59-62): extend this section's options in place
with the given keywords. -/
def base (store : Store) (i : Nat) (k : Kwargs) : Store :=
  match store[i]? with
  | some node => store.set i { node with opts := node.opts.update k }
  | none => store

/-- The arena holding just a freshly constructed root
`Section()` — default url `'/'`, no name, no parent — whose (lazily
created) options are the `Options()` defaults. -/
def initStore : Store :=
  [mkSection "/" none none defaultOptions]

/-- `Menu.__init__` (lines 536-540); the site collection is not needed by
the modelled traversal. -/
structure Menu where
  selectedSection : Nat
  remainingUrl : List String

/-- `Menu.heirarchial` (lines 550-569).  Defaults: a falsy `section` falls
back to the selected section, a falsy `path` (None or empty) to a copy of
the remaining url, a None `parentUrl` to `[]`.  When the section's
`showBase` is set, delegate to `getInfo` with `self.heirarchial` as the
generator (recorded by `gen = true`).  Otherwise fold the section's url
into `parentUrl` and iterate the children — but the loop body at line 569
evaluates `self.hierarchial`, a misspelling of the method's own name
`heirarchial`, so with at least one child the generator raises
AttributeError; with no children it yields nothing. -/
def heirarchial (store : Store) (m : Menu) (sectionArg : Option Nat)
    (pathArg : Option (List String)) (parentUrlArg : Option (List String))
    (parentSelected : Bool) : Except PyErr (List InfoTuple) :=
  let i := sectionArg.getD m.selectedSection
  let path := match pathArg with
    | none => m.remainingUrl
    | some [] => m.remainingUrl
    | some p => p
  let parentUrl := parentUrlArg.getD []
  match store[i]? with
  | none => .error .indexError
  | some node =>
    if node.opts.showBase then
      getInfo store i path (some parentUrl) parentSelected true
    else
      let _ := if node.url = "" then parentUrl else parentUrl ++ [node.url]
      if node.childrenIdx.isEmpty then .ok []
      else .error (.attributeError "hierarchial")

/-!  Concrete section trees used to settle the claims. -/

/-- `root.add('products', name='products').add('42', match='id', name='detail')`. -/
def opsProducts : List BuildOp :=
  [.add 0 "products" none (some "products"), .add 1 "42" (some "id") (some "detail")]

/-- The arena for `opsProducts`; index 2 is the `'42'` leaf. -/
def stProducts : Store :=
  match buildOps initStore opsProducts with
  | .ok s => s
  | .error _ => []

/-- A `Values` store holding one enumerator over the three values 1, 2, 3. -/
def valStore : ValuesStore := [⟨[1, 2, 3]⟩]

/-- `root.add('item')` with a three-value `Values` attached to the item's
options (`item.base(values=Values(...))`); index 1 is the item section. -/
def stItem : Store :=
  match buildOps initStore [.add 0 "item" none none] with
  | .ok s => base s 1 { emptyKwargs with values := some (some 0) }
  | .error _ => []

/-- A lone `Section('foo')` whose options have `active=False`
(`Section('foo').base(active=False)`). -/
def stInactive : Store :=
  base [mkSection "foo" none none defaultOptions] 0
    { emptyKwargs with active := some false }

/-- As `stInactive` but with `exists=False` instead. -/
def stNotExists : Store :=
  base [mkSection "foo" none none defaultOptions] 0
    { emptyKwargs with exists_ := some false }

/-- `root.add('child')`; index 1 is the child. -/
def stChild : Store :=
  match buildOps initStore [.add 0 "child" none none] with
  | .ok s => s
  | .error _ => []

/-- `root.add('base').add('kid')` with `showBase=False` on the `'base'`
section (index 1), which has the one child at index 2. -/
def stShowBase : Store :=
  match buildOps initStore [.add 0 "base" none none, .add 1 "kid" none none] with
  | .ok s => base s 1 { emptyKwargs with showBase := some false }
  | .error _ => []

/-- A childless section with `showBase=False`. -/
def stShowBaseLeaf : Store :=
  base [mkSection "solo" none none defaultOptions] 0
    { emptyKwargs with showBase := some false }

/-- `root.add('a')`, `a.add('b', match='id')`, `a.first()`: exercises both
`add` and `first`; the arena has four nodes, the `first`-child at index 3. -/
def opsMixed : List BuildOp :=
  [.add 0 "a" none none, .add 1 "b" (some "id") none, .first 1 none none]

/-- The arena for `opsMixed`. -/
def stMixed : Store :=
  match buildOps initStore opsMixed with
  | .ok s => s
  | .error _ => []

/-- The arena after the first `opsMixed` step only. -/
def stOne : Store :=
  match buildOps initStore [.add 0 "a" none none] with
  | .ok s => s
  | .error _ => []

/-- The arena after the first two `opsMixed` steps. -/
def stTwo : Store :=
  match buildOps initStore [.add 0 "a" none none, .add 1 "b" (some "id") none] with
  | .ok s => s
  | .error _ => []

/-!  Spec-side definitions and decidable well-formedness checks. -/

/-- The url regex as the spec sentence literally words it: segments joined
with `'/'`, repeated separators collapsed to one, anchored `'^...$'` when
the joined path ends in a separator and `'^...\/?$'` — with the escaped
slash written as the two characters backslash, slash — otherwise.  The
source (line 340) writes the trailing anchor as the three characters
`'/?$'` with no backslash, so the two definitions disagree on every
non-slash-terminated path. -/
def specUrlRegex (ps : List String) : String :=
  let joined := collapseSlash (String.intercalate "/" ps)
  if pyEndsWith joined '/' then "^" ++ joined ++ "$"
  else "^" ++ joined ++ "\\/?$"

/-- The url regex the code actually formats (lines 331-340): segments
joined with `'/'`, repeated separators collapsed to one, anchored
`'^...$'` when the joined path ends in a separator and `'^.../?$'`
otherwise.  As regexes the `/?` and `\/?` anchors are equivalent — a
backslash before a slash is a no-op escape — but as strings they differ. -/
def codeUrlRegex (ps : List String) : String :=
  let joined := collapseSlash (String.intercalate "/" ps)
  if pyEndsWith joined '/' then "^" ++ joined ++ "$"
  else "^" ++ joined ++ "/?$"

/-- No two adjacent slashes anywhere: every run of `'/'` has length one. -/
def noDouble : List Char → Bool
  | [] => true
  | [_] => true
  | a :: b :: rest => if a = '/' ∧ b = '/' then false else noDouble (b :: rest)

/-- Decidable check that every parent index is strictly below its child's
index (true of every arena built by `add` / `first`, whose new nodes go to
the end). -/
def parentsDecreasingB (store : Store) : Bool :=
  (List.range store.length).all fun i =>
    match store[i]? with
    | some node =>
      match node.parentIdx with
      | some p => decide (p < i)
      | none => true
    | none => true

/-- Decidable check that no node carries a truthy `_pattern` cache (true of
every arena built by `add` / `first`, and preserved forever because line
222 of the source never writes `_pattern`). -/
def noCachedB (store : Store) : Bool :=
  store.all fun node => (node.underscorePattern.getD []).isEmpty

/-- Well-formed parent structure: index 0 is the unique root and every
other node's parent sits strictly below it. -/
def ParentsOkP (store : Store) : Prop :=
  ∀ i node, store[i]? = some node →
    (node.parentIdx = none ↔ i = 0) ∧ ∀ p, node.parentIdx = some p → p < i

/-- The `'42'` leaf node of `stProducts` (arena index 2), spelled out. -/
def prodLeaf : SectionNode :=
  ⟨"42", some "detail", some 1, [], { defaultOptions with match_ := some "id" },
   none, none⟩

/-- The `'item'` node of `stItem` (arena index 1), spelled out. -/
def itemNode : SectionNode :=
  ⟨"item", none, some 0, [], { defaultOptions with values := some 0 }, none, none⟩

/-- Source options of the clone-aliasing scenario: a section's options
carrying the `Values` reference `0` into `valStore`. -/
def srcOptions : Options :=
  { defaultOptions with values := some 0 }

/-- Dereference an Options' `values` and read the enumerated raw values. -/
def readVals (o : Options) (vs : ValuesStore) : Option (List Int) :=
  o.values.bind fun r => (vs[r]?).map ValuesObj.vals

/-- Mutate the `Values` object behind the given reference in place
(`valuesObject.values = newVals` in Python). -/
def mutateAt (vs : ValuesStore) (ref : Option Nat) (newVals : List Int) :
    ValuesStore :=
  match ref with
  | some r => vs.set r ⟨newVals⟩
  | none => vs

/-- A module object `app.views` holding a `View` class, for the getObj
attribute walk. -/
def appViewsObj : PObj :=
  PObj.mk "app.views" [("views", PObj.mk "views" [("View", PObj.mk "View" [])])]

/-!  Supporting lemmas. -/

theorem parentsDecreasingB_spec {store : Store}
    (h : parentsDecreasingB store = true) :
    ∀ (i : Nat) (node : SectionNode) (p : Nat),
      store[i]? = some node → node.parentIdx = some p → p < i := by
  intro i node p hi hp
  have hilen : i < store.length := (List.getElem?_eq_some_iff.mp hi).1
  unfold parentsDecreasingB at h
  rw [List.all_eq_true] at h
  have h3 := h i (List.mem_range.mpr hilen)
  simp only [hi, hp] at h3
  exact of_decide_eq_true h3

theorem noCachedB_spec {store : Store} (h : noCachedB store = true) :
    ∀ (i : Nat) (node : SectionNode),
      store[i]? = some node → node.underscorePattern.getD [] = [] := by
  intro i node hi
  unfold noCachedB at h
  rw [List.all_eq_true] at h
  obtain ⟨hlen, heq⟩ := List.getElem?_eq_some_iff.mp hi
  have hmem : node ∈ store := heq ▸ List.getElem_mem hlen
  exact List.isEmpty_iff.mp (h node hmem)

theorem getPatternAux_stable {store : Store}
    (hdec : ∀ (i : Nat) (node : SectionNode) (p : Nat),
      store[i]? = some node → node.parentIdx = some p → p < i) :
    ∀ i f g, i < f → i < g → getPatternAux store f i = getPatternAux store g i := by
  intro i
  induction i using Nat.strong_induction_on with
  | _ i ih =>
    intro f g hf hg
    obtain ⟨f1, rfl⟩ : ∃ f1, f = f1 + 1 := ⟨f - 1, by omega⟩
    obtain ⟨g1, rfl⟩ : ∃ g1, g = g1 + 1 := ⟨g - 1, by omega⟩
    simp only [getPatternAux]
    cases hi : store[i]? with
    | none => rfl
    | some node =>
      cases hp : node.parentIdx with
      | none => simp only [hp]
      | some p =>
        have hpi := hdec i node p hi hp
        have hrec : getPatternAux store f1 p = getPatternAux store g1 p :=
          ih p hpi f1 g1 (by omega) (by omega)
        simp only [hp, hrec]

theorem getPatternAux_isSome {store : Store}
    (hdec : ∀ (i : Nat) (node : SectionNode) (p : Nat),
      store[i]? = some node → node.parentIdx = some p → p < i) :
    ∀ i f, i < store.length → i < f → (getPatternAux store f i).isSome = true := by
  intro i
  induction i using Nat.strong_induction_on with
  | _ i ih =>
    intro f hlen hf
    obtain ⟨f1, rfl⟩ : ∃ f1, f = f1 + 1 := ⟨f - 1, by omega⟩
    simp only [getPatternAux]
    obtain ⟨node, hi⟩ : ∃ node, store[i]? = some node :=
      ⟨_, List.getElem?_eq_getElem hlen⟩
    rw [hi]
    cases hcache : (node.underscorePattern.getD []).isEmpty with
    | false => simp [hcache]
    | true =>
      cases hp : node.parentIdx with
      | none => simp [hcache, hp]
      | some p =>
        have hpi := hdec i node p hi hp
        have hps := ih p hpi f1 (by omega) (by omega)
        obtain ⟨pp, hpp⟩ := Option.isSome_iff_exists.mp hps
        simp [hcache, hp, hpp]

theorem urlPattern_length {o : Options} {ps : List String} {si : Option Nat}
    {nm : Option String} (ha : o.active = true) (he : o.exists_ = true) :
    (o.urlPattern ps si nm).length = 1 := by
  unfold Options.urlPattern
  rw [ha, he]
  cases hr : o.redirect with
  | none => cases o.target <;> rfl
  | some r =>
    by_cases hre : r = "" <;> cases o.target <;> simp [hre]

theorem collapseChars_cons (b : Char) (rest : List Char) :
    ∃ t, collapseChars (b :: rest) = b :: t := by
  induction rest generalizing b with
  | nil => exact ⟨[], rfl⟩
  | cons c r ih =>
    by_cases h : b = '/' ∧ c = '/'
    · obtain ⟨t, ht⟩ := ih c
      refine ⟨t, ?_⟩
      simp only [collapseChars, if_pos h]
      rw [ht, h.1, h.2]
    · exact ⟨collapseChars (c :: r), by simp only [collapseChars, if_neg h]⟩

theorem noDouble_collapseChars (l : List Char) :
    noDouble (collapseChars l) = true := by
  induction l with
  | nil => rfl
  | cons a rest ih =>
    cases rest with
    | nil => rfl
    | cons b r =>
      by_cases h : a = '/' ∧ b = '/'
      · simp only [collapseChars, if_pos h]
        exact ih
      · simp only [collapseChars, if_neg h]
        obtain ⟨t, ht⟩ := collapseChars_cons b r
        rw [ht]
        simp only [noDouble, if_neg h]
        rw [← ht]
        exact ih

theorem applyOp_add_parent {store : Store} {p : Nat} {url : String}
    {m n : Option String} {st : Store}
    (h : applyOp store (.add p url m n) = .ok st) :
    ∃ pn, store[p]? = some pn ∧
      st = (store ++ [mkSection url n (some p) (pn.opts.clone (matchKwargs m))]).set p
        { pn with childrenIdx := pn.childrenIdx ++ [store.length] } := by
  simp only [applyOp] at h
  split at h
  · simp at h
  · cases hp : store[p]? with
    | none => rw [hp] at h; simp at h
    | some pn =>
      rw [hp] at h
      simp only [Except.ok.injEq] at h
      exact ⟨pn, rfl, h.symm⟩

theorem applyOp_first_parent {store : Store} {p : Nat}
    {m n : Option String} {st : Store}
    (h : applyOp store (.first p m n) = .ok st) :
    ∃ pn kept, store[p]? = some pn ∧
      st = (store ++ [mkSection "" n (some p) (pn.opts.clone (matchKwargs m))]).set p
        { pn with childrenIdx := store.length :: kept } := by
  simp only [applyOp] at h
  cases hp : store[p]? with
  | none => rw [hp] at h; simp at h
  | some pn =>
    rw [hp] at h
    simp only [Except.ok.injEq] at h
    exact ⟨pn, _, rfl, h.symm⟩

theorem setAppend_parentsOk {store : Store} {p : Nat} {pn c : SectionNode}
    {kids : List Nat} (hok : ParentsOkP store) (hp : store[p]? = some pn)
    (hc : c.parentIdx = some p) :
    ParentsOkP ((store ++ [c]).set p { pn with childrenIdx := kids }) := by
  intro j nodej hj
  have hplen : p < store.length := (List.getElem?_eq_some_iff.mp hp).1
  by_cases hjp : j = p
  · subst hjp
    rw [List.getElem?_set_self (by simp; omega)] at hj
    obtain rfl : { pn with childrenIdx := kids } = nodej := Option.some.inj hj
    exact hok j pn hp
  · rw [List.getElem?_set_ne (Ne.symm hjp)] at hj
    by_cases hjl : j < store.length
    · rw [List.getElem?_append_left hjl] at hj
      exact hok j nodej hj
    · by_cases hje : j = store.length
      · subst hje
        rw [List.getElem?_concat_length] at hj
        obtain rfl : c = nodej := Option.some.inj hj
        refine ⟨⟨fun hcon => absurd hcon (by simp [hc]), fun h0 => by omega⟩, ?_⟩
        intro p2 hp2
        have hpp : p2 = p := by
          rw [hc] at hp2
          exact (Option.some.inj hp2).symm
        omega
      · have hnone : (store ++ [c])[j]? = none := by
          apply List.getElem?_eq_none
          simp only [List.length_append, List.length_cons, List.length_nil]
          omega
        rw [hnone] at hj
        exact absurd hj (by simp)

theorem applyOp_parentsOk {store st : Store} {op : BuildOp}
    (hok : ParentsOkP store) (h : applyOp store op = .ok st) : ParentsOkP st := by
  cases op with
  | add p url m n =>
    obtain ⟨pn, hp, rfl⟩ := applyOp_add_parent h
    exact setAppend_parentsOk hok hp rfl
  | first p m n =>
    obtain ⟨pn, kept, hp, rfl⟩ := applyOp_first_parent h
    exact setAppend_parentsOk hok hp rfl

theorem buildOps_parentsOk : ∀ (ops : List BuildOp) (store st : Store),
    ParentsOkP store → buildOps store ops = .ok st → ParentsOkP st := by
  intro ops
  induction ops with
  | nil =>
    intro store st h hb
    obtain rfl : store = st := Except.ok.inj hb
    exact h
  | cons op rest ih =>
    intro store st h hb
    rw [show buildOps store (op :: rest) =
        applyOp store op >>= fun s1 => buildOps s1 rest from rfl] at hb
    cases hap : applyOp store op with
    | error e => rw [hap] at hb; exact Except.noConfusion hb
    | ok s1 =>
      rw [hap] at hb
      exact ih s1 st (applyOp_parentsOk h hap) hb

theorem initStore_parentsOk : ParentsOkP initStore := by
  intro i node hi
  match i with
  | 0 =>
    have hn : node = mkSection "/" none none defaultOptions := by
      simpa [initStore] using hi.symm
    subst hn
    refine ⟨by simp [mkSection], ?_⟩
    intro p hp
    simp [mkSection] at hp
  | i + 1 =>
    simp [initStore] at hi

theorem rootAncestorAux_eq_zero {store : Store} (hok : ParentsOkP store) :
    ∀ i f, i < store.length → i < f → rootAncestorAux store f i = some 0 := by
  intro i
  induction i using Nat.strong_induction_on with
  | _ i ih =>
    intro f hlen hf
    obtain ⟨f1, rfl⟩ : ∃ f1, f = f1 + 1 := ⟨f - 1, by omega⟩
    simp only [rootAncestorAux]
    obtain ⟨node, hi⟩ : ∃ node, store[i]? = some node :=
      ⟨_, List.getElem?_eq_getElem hlen⟩
    rw [hi]
    cases hp : node.parentIdx with
    | none =>
      have h0 : i = 0 := ((hok i node hi).1).mp hp
      simp [hp, h0]
    | some p =>
      have hpi : p < i := (hok i node hi).2 p hp
      simp only [hp]
      exact ih p hpi f1 (by omega) (by omega)

theorem urlPattern_pattern_eq {o : Options} {ps : List String} {si : Option Nat}
    {nm : Option String} {e : UrlEntry} (ha : o.active = true)
    (he : o.exists_ = true) (hmem : e ∈ o.urlPattern ps si nm) :
    e.pattern = codeUrlRegex ps := by
  unfold Options.urlPattern at hmem
  rw [ha, he] at hmem
  simp only [Bool.and_self, if_true] at hmem
  cases hred : o.redirect with
  | none =>
    simp only [hred] at hmem
    cases htar : o.target with
    | name t =>
      simp only [htar, List.mem_singleton] at hmem
      subst hmem
      rfl
    | fn f =>
      simp only [htar, List.mem_singleton] at hmem
      subst hmem
      rfl
  | some r =>
    simp only [hred] at hmem
    by_cases hr : r = ""
    · simp only [hr, ne_eq, not_true_eq_false, if_false] at hmem
      cases htar : o.target with
      | name t =>
        simp only [htar, List.mem_singleton] at hmem
        subst hmem
        rfl
      | fn f =>
        simp only [htar, List.mem_singleton] at hmem
        subst hmem
        rfl
    · simp only [ne_eq, hr, not_false_eq_true, if_true, List.mem_singleton] at hmem
      subst hmem
      rfl

/-!  Claim theorems. -/

/-- C1 counterexample.  On `root.add('item')` with a three-value `Values`
enumerator attached to the item's options, `patternList()` does not yield
three url pattern tuples: as written it raises NameError (line 194 reads
the undefined name `section`), and with the two name slips repaired it
emits exactly one tuple, because `Options.urlPattern` never consults
`values`. -/
theorem c1_counterexample :
    patternList stItem 1 = .error (.nameError "section") ∧
    (patternListIntended stItem 10 1).map List.length = .ok 1 :=
  ⟨rfl, rfl⟩

/-- C1 (amended): for every leaf section with `active` and `exists` set,
the repaired `patternList` emits exactly one url pattern tuple even when a
`Values` enumerator is attached — no per-value expansion happens in the
routing table. -/
theorem c1_values_single_pattern (store : Store) (i : Nat) (node : SectionNode)
    (fuel : Nat) (hi : store[i]? = some node) (hleaf : node.childrenIdx = [])
    (hact : node.opts.active = true) (hex : node.opts.exists_ = true)
    (hvals : node.opts.values.isSome = true) :
    (patternListIntended store (fuel + 1) i).map List.length = .ok 1 := by
  simp only [patternListIntended, hi, hleaf]
  simp only [List.isEmpty_nil, Bool.or_true, if_true, List.foldlM_nil]
  exact congrArg Except.ok (urlPattern_length hact hex)

/-- C1 witness: the amended claim instantiated on the `stItem` arena. -/
theorem c1_values_single_pattern_witness :
    stItem[1]? = some itemNode ∧
    (patternListIntended stItem (9 + 1) 1).map List.length = .ok 1 :=
  ⟨rfl, c1_values_single_pattern stItem 1 itemNode 9 rfl rfl rfl rfl rfl⟩

/-- C2 (amended): in every arena with decreasing parent links and no truthy
`_pattern` cache (true of every tree built by `add` / `first`), a child's
`getPattern()` is its parent's `getPattern()` with exactly one segment
appended — `(?P<match>url)` when the child's options declare a truthy match
name, else the literal url. -/
theorem c2_child_append (store : Store) (i p : Nat) (node : SectionNode)
    (hdec : parentsDecreasingB store = true) (hnc : noCachedB store = true)
    (hi : store[i]? = some node) (hp : node.parentIdx = some p) :
    ∃ pp, getPat store p = some pp ∧
      getPat store i = some (pp ++ [segOf node]) := by
  have hd := parentsDecreasingB_spec hdec
  have hplt : p < i := hd i node p hi hp
  have hilen : i < store.length := (List.getElem?_eq_some_iff.mp hi).1
  have hplen : p < store.length := Nat.lt_trans hplt hilen
  have hsome := getPatternAux_isSome hd p (p + 1) hplen (Nat.lt_succ_self p)
  obtain ⟨pp, hpp⟩ := Option.isSome_iff_exists.mp hsome
  refine ⟨pp, hpp, ?_⟩
  show getPatternAux store (i + 1) i = some (pp ++ [segOf node])
  simp only [getPatternAux, hi]
  have hcz : node.underscorePattern.getD [] = [] := noCachedB_spec hnc i node hi
  rw [hcz]
  simp only [List.isEmpty_nil, if_true, hp]
  have hst : getPatternAux store i p = getPatternAux store (p + 1) p :=
    getPatternAux_stable hd p i (p + 1) hplt (Nat.lt_succ_self p)
  rw [hst, hpp]

/-- C2 counterexample.  On
`root.add('products', name='products').add('42', match='id', name='detail')`
the leaf's `getPattern()` is `['/', 'products', '(?P<id>42)']`: the root's
own url `'/'` leads the list, so the claimed value
`['products', '(?P<id>42)']` is wrong. -/
theorem c2_counterexample :
    getPat stProducts 2 = some ["/", "products", "(?P<id>42)"] ∧
    getPat stProducts 2 ≠ some ["products", "(?P<id>42)"] :=
  ⟨rfl, by decide⟩

/-- C2 witness: the parent-append invariant instantiated on the `'42'` leaf
of `stProducts`. -/
theorem c2_child_append_witness :
    parentsDecreasingB stProducts = true ∧
    ∃ pp, getPat stProducts 1 = some pp ∧
      getPat stProducts 2 = some (pp ++ [segOf prodLeaf]) :=
  ⟨rfl, c2_child_append stProducts 2 1 prodLeaf rfl rfl rfl rfl⟩

/-- C3: `determineSelection` returns `(false, [])` whenever the parent is
unselected or the path is empty; otherwise it compares the path head with
the supplied url (falling back to the node's own url when the argument is
absent or empty) and returns `(true, rest-of-path)` on a match and
`(false, [])` on a mismatch. -/
theorem c3_determineSelection (node : SectionNode) (ps : Bool)
    (url : Option String) (path : List String) (p : String)
    (rest : List String) :
    node.determineSelection path false url = (false, []) ∧
    node.determineSelection [] ps url = (false, []) ∧
    node.determineSelection (p :: rest) true url =
      (if p = (match url with
               | none => node.url
               | some v => if v = "" then node.url else v)
       then (true, rest) else (false, [])) := by
  refine ⟨rfl, ?_, rfl⟩
  cases ps <;> rfl

/-- C4 (amended): `clone(**kwargs)` builds an Options whose specified
fields equal the overrides and whose unspecified fields equal the source's
current values — including the `values` slot, which is copied as a
reference, so the mutable Values sub-object ends up shared between source
and clone unless explicitly overridden. -/
theorem c4_clone_fields (o : Options) (k : Kwargs) :
    (o.clone k).active = k.active.getD o.active ∧
    (o.clone k).exists_ = k.exists_.getD o.exists_ ∧
    (o.clone k).display = k.display.getD o.display ∧
    (o.clone k).showBase = k.showBase.getD o.showBase ∧
    (o.clone k).alias_ = k.alias_.getD o.alias_ ∧
    (o.clone k).match_ = k.match_.getD o.match_ ∧
    (o.clone k).values = k.values.getD o.values ∧
    (o.clone k).kls = k.kls.getD o.kls ∧
    (o.clone k).module = k.module.getD o.module ∧
    (o.clone k).target = k.target.getD o.target ∧
    (o.clone k).redirect = k.redirect.getD o.redirect ∧
    (o.clone k).condition = k.condition.getD o.condition ∧
    (o.clone k).extraContext = k.extraContext.getD o.extraContext :=
  ⟨rfl, rfl, rfl, rfl, rfl, rfl, rfl, rfl, rfl, rfl, rfl, rfl, rfl⟩

/-- C4 counterexample.  `clone` with no overrides copies the `values`
reference, so source and clone share the same Values object: mutating the
enumerated values through the clone's reference changes what the source
reads. -/
theorem c4_counterexample :
    (srcOptions.clone emptyKwargs).values = srcOptions.values ∧
    readVals srcOptions valStore = some [1, 2, 3] ∧
    readVals srcOptions
      (mutateAt valStore (srcOptions.clone emptyKwargs).values [9]) = some [9] :=
  ⟨rfl, rfl, rfl⟩

/-- C5: an inactive (or non-existing) section yields zero `getInfo` tuples
and contributes nothing to a Menu traversal; its `patternList()` however
raises NameError on line 194 instead of yielding zero entries — with the
name slips repaired it does yield zero entries. -/
theorem c5_inactive_contributes_nothing :
    patternList stInactive 0 = .error (.nameError "section") ∧
    getInfo stInactive 0 ["foo"] none true false = .ok [] ∧
    getInfo stNotExists 0 ["foo"] none true true = .ok [] ∧
    heirarchial stInactive ⟨0, ["foo"]⟩ none none none true = .ok [] ∧
    patternListIntended stInactive 1 0 = .ok [] ∧
    patternListIntended stNotExists 1 0 = .ok [] :=
  ⟨rfl, rfl, rfl, rfl, rfl, rfl⟩

/-- C6: `getObj` strips one leading and one trailing dot from a string
`kls` and uses the stripped form in the module-is-None and attribute-walk
branches; but in the both-strings branch (line 318) it concatenates the
original unstripped `self.kls`, so `module='app.views', kls='.View'`
resolves to `'app.views..View'`, not `'app.views.View'`. -/
theorem c6_getObj_resolution :
    Options.getObj { defaultOptions with kls := .str ".View", module := .str "app.views" } =
      .ok (.str "app.views..View") ∧
    "app.views..View" ≠ "app.views.View" ∧
    Options.getObj { defaultOptions with kls := .str ".View.", module := .none } =
      .ok (.str "View") ∧
    Options.getObj { defaultOptions with kls := .str "", module := .none } =
      .ok .none ∧
    Options.getObj { defaultOptions with kls := .str "views.View", module := .obj appViewsObj } =
      .ok (.obj (PObj.mk "View" [])) :=
  ⟨rfl, by decide, rfl, rfl, rfl⟩

/-- C7 counterexample.  For the single segment `['products']` (with
`active` and `exists` set) the code emits the pattern `'^products/?$'`
— line 340 formats `'^%s/?$'`, three trailing characters with no
backslash — which is not the claim's literal anchor
`'^products\/?$'` (`specUrlRegex`). -/
theorem c7_counterexample :
    (defaultOptions.urlPattern ["products"] none none).map UrlEntry.pattern =
      ["^products/?$"] ∧
    "^products/?$" ≠ specUrlRegex ["products"] :=
  ⟨rfl, by decide⟩

/-- C7 (amended): with `active` and `exists` set, every tuple emitted by
`urlPattern` carries the pattern string obtained by joining the segments
with `'/'`, collapsing repeated separators to one, and anchoring `^...$`
when the joined path ends in a separator, else `^.../?$` — the trailing
anchor is written without the backslash the spec's regex notation shows
(as regexes the two are equivalent); the collapsed string contains no two
adjacent slashes. -/
theorem c7_urlPattern_shape (o : Options) (ps : List String) (si : Option Nat)
    (nm : Option String) (ha : o.active = true) (he : o.exists_ = true) :
    (∀ e ∈ o.urlPattern ps si nm, e.pattern = codeUrlRegex ps) ∧
    noDouble (collapseSlash (String.intercalate "/" ps)).data = true :=
  ⟨fun _ hm => urlPattern_pattern_eq ha he hm,
   noDouble_collapseChars (String.intercalate "/" ps).data⟩

/-- C7 witness: the pattern shape instantiated on the default options and
the `['/', 'products', '(?P<id>42)']` segment list. -/
theorem c7_urlPattern_shape_witness :
    defaultOptions.active = true ∧ defaultOptions.exists_ = true ∧
    ((∀ e ∈ defaultOptions.urlPattern ["/", "products", "(?P<id>42)"] (some 2) (some "detail"),
        e.pattern = codeUrlRegex ["/", "products", "(?P<id>42)"]) ∧
      noDouble (collapseSlash (String.intercalate "/" ["/", "products", "(?P<id>42)"])).data = true) :=
  ⟨rfl, rfl,
   c7_urlPattern_shape defaultOptions ["/", "products", "(?P<id>42)"] (some 2) (some "detail") rfl rfl⟩

/-- C8: `getPattern` on the child of `root.add('child')` computes
`['/', 'child']` and stores it in the dynamically created `pattern`
attribute, while `_pattern` — the slot the cache test at line 209
reads — remains `None`, so a second call recomputes instead of returning a
stored list. -/
theorem c8_cache_never_hits :
    (getPatternSAux stChild 2 1).map
        (fun r => (r.1, (r.2[1]?).map (fun node => (node.underscorePattern, node.patternAttr)))) =
      some (["/", "child"], some (none, some ["/", "child"])) ∧
    getPat stChild 1 = some ["/", "child"] :=
  ⟨rfl, rfl⟩

/-- C9: `Menu.heirarchial` on a section with `showBase=False` and one child
raises AttributeError — line 569 refers to `self.hierarchial`, a
misspelling of the method's name `heirarchial` — instead of yielding the
children's info tuples; with no children it yields nothing. -/
theorem c9_heirarchial_raises :
    heirarchial stShowBase ⟨1, ["x"]⟩ none none none false =
      .error (.attributeError "hierarchial") ∧
    heirarchial stShowBaseLeaf ⟨0, ["x"]⟩ none none none false = .ok [] :=
  ⟨rfl, rfl⟩

/-- C10: every child created by `add` or `first` records the creating
section as its parent, and in any arena built solely through `add` and
`first` from the parentless root, `rootAncestor()` reaches that root
(index 0) from every node. -/
theorem c10_parent_and_root :
    (∀ (store : Store) (p : Nat) (url : String) (m n : Option String) (st : Store),
        applyOp store (.add p url m n) = .ok st →
        (st[store.length]?).map SectionNode.parentIdx = some (some p)) ∧
    (∀ (store : Store) (p : Nat) (m n : Option String) (st : Store),
        applyOp store (.first p m n) = .ok st →
        (st[store.length]?).map SectionNode.parentIdx = some (some p)) ∧
    (∀ (ops : List BuildOp) (st : Store), buildOps initStore ops = .ok st →
        ∀ i, i < st.length → rootAncestorAux st st.length i = some 0) := by
  refine ⟨?_, ?_, ?_⟩
  · intro store p url m n st h
    obtain ⟨pn, hp, rfl⟩ := applyOp_add_parent h
    have hplen : p < store.length := (List.getElem?_eq_some_iff.mp hp).1
    rw [List.getElem?_set_ne (by omega : p ≠ store.length),
      List.getElem?_concat_length]
    rfl
  · intro store p m n st h
    obtain ⟨pn, kept, hp, rfl⟩ := applyOp_first_parent h
    have hplen : p < store.length := (List.getElem?_eq_some_iff.mp hp).1
    rw [List.getElem?_set_ne (by omega : p ≠ store.length),
      List.getElem?_concat_length]
    rfl
  · intro ops st hb i hi
    exact rootAncestorAux_eq_zero
      (buildOps_parentsOk ops initStore st initStore_parentsOk hb) i st.length hi hi

/-- C10 witness: the parent and root-ancestor facts instantiated on the
`stMixed` construction script. -/
theorem c10_parent_and_root_witness :
    (stOne[1]?).map SectionNode.parentIdx = some (some 0) ∧
    (stMixed[3]?).map SectionNode.parentIdx = some (some 1) ∧
    rootAncestorAux stMixed stMixed.length 3 = some 0 :=
  ⟨c10_parent_and_root.1 initStore 0 "a" none none stOne rfl,
   c10_parent_and_root.2.1 stTwo 1 none none stMixed rfl,
   c10_parent_and_root.2.2 opsMixed stMixed rfl 3 (by decide)⟩

end Cwf
